import Mathlib

set_option maxHeartbeats 1000000

namespace SqliteOrm

/-- Mirror of the `sync_schema_result` enumeration (sync_schema_result.h), the
classification returned by `storage_t::schema_status` / `sync_table` in storage.h. -/
inductive SyncSchemaResult where
  | new_table_created
  | already_in_sync
  | old_columns_removed
  | new_columns_added
  | new_columns_added_and_old_columns_removed
  | dropped_and_recreated
deriving DecidableEq, Repr

/-- Mirror of `basic_generated_always::storage_type` as used at storage.h:909
(`stored` forces recreation, `VIRTUAL can be added`). -/
inductive GeneratedStorageKind where
  | virtualGen
  | storedGen
deriving DecidableEq, Repr

/-- Column metadata in the shape of `PRAGMA table_xinfo` rows (`table_xinfo` records),
the common currency of `schema_status` for both the declared (`get_table_info`) and the
live (`pragma.table_xinfo`) column sets. An empty `dflt_value` means no default
(the source tests `dflt_value.empty()` at storage.h:913). -/
structure TableXInfo where
  name : String
  type : String
  notnull : Bool
  dflt_value : String
  pk : Nat
  hidden : Nat
deriving DecidableEq, Repr

/-- A declared column of the in-memory schema model (column.h / spec section 3):
`generated` is `none` for an ordinary column, `some` for a generated one. -/
structure Column where
  name : String
  type : String
  notnull : Bool
  dflt_value : String
  pk : Nat
  generated : Option GeneratedStorageKind
deriving DecidableEq, Repr

/-- A declared table of the in-memory schema model (spec sections 3 and 6). -/
structure Table where
  name : String
  withoutRowid : Bool
  columns : List Column
deriving DecidableEq, Repr

/-- The `table_xinfo` row a declared column presents, with the sqlite hidden flag
(0 ordinary, 2 virtual generated, 3 stored generated). -/
def Column.toXInfo (c : Column) : TableXInfo :=
  { name := c.name, type := c.type, notnull := c.notnull, dflt_value := c.dflt_value,
    pk := c.pk,
    hidden := match c.generated with
      | none => 0
      | some GeneratedStorageKind.virtualGen => 2
      | some GeneratedStorageKind.storedGen => 3 }

/-- `table_t::get_table_info` as consumed at storage.h:875: the declared columns in
declaration order, in `table_xinfo` shape. -/
def Table.get_table_info (t : Table) : List TableXInfo :=
  t.columns.map Column.toXInfo

/-- `table_t::find_column_generated_storage_type` as consumed at storage.h:905-906:
the generated storage kind of the named declared column, `none` when the column is
absent or not generated. -/
def Table.find_column_generated_storage_type (t : Table) (columnName : String) :
    Option GeneratedStorageKind :=
  match t.columns.find? (fun c => c.name == columnName) with
  | some c => c.generated
  | none => none

/-- The live database schema: an association of table names to their live
`table_xinfo` rows, queried through `table_exists` and `pragma.table_xinfo`. -/
abbrev DBState := List (String × List TableXInfo)

/-- Lookup of a live table by name (first match). -/
def table_lookup (db : DBState) (tableName : String) : Option (List TableXInfo) :=
  match db.find? (fun p => p.1 == tableName) with
  | some p => some p.2
  | none => none

/-- `storage_t::table_exists` as used at storage.h:870 and 170-176: a pure read. -/
def table_exists (db : DBState) (tableName : String) : Bool :=
  (table_lookup db tableName).isSome

/-- `pragma.table_xinfo` as used at storage.h:867: the live column rows of a table,
empty for a table that does not exist. A pure read. -/
def table_xinfo (db : DBState) (tableName : String) : List TableXInfo :=
  (table_lookup db tableName).getD []

/-- Modelled from the spec: the per-column comparison of `calculate_remove_add_columns`
(spec section 4.1): a column present in both sets is compatible when its type,
nullability, default presence and primary-key membership agree; any mismatch makes the
whole table incompatible. -/
def columns_compatible (s d : TableXInfo) : Bool :=
  s.type == d.type && s.notnull == d.notnull &&
    ((s.dflt_value == "") == (d.dflt_value == "")) && s.pk == d.pk

/-- Modelled from the spec: `calculate_remove_add_columns`, called at storage.h:880 but not
part of the excerpt. Per spec section 4.1 it returns the declared columns without a live
counterpart (`columnsToAdd`, in declaration order), leaves in the live list exactly the
columns without a declared counterpart (the extraneous ones, returned here as the second
component), and reports whether some column present in both sets is incompatible. -/
def calculate_remove_add_columns (storageTableInfo dbTableInfo : List TableXInfo) :
    List TableXInfo × List TableXInfo × Bool :=
  let columnsToAdd := storageTableInfo.filter fun s => !dbTableInfo.any fun d => d.name == s.name
  let extraneous := dbTableInfo.filter fun d => !storageTableInfo.any fun s => s.name == d.name
  let incompatible := storageTableInfo.any fun s =>
    match dbTableInfo.find? (fun d => d.name == s.name) with
    | some d => !columns_compatible s d
    | none => false
  (columnsToAdd, extraneous, incompatible)

/-- The loop over `columnsToAdd` inside `schema_status` (storage.h:904-925), returning
(`gottaCreateTable`, `attempt_to_preserve`): the first stored-generated column breaks with
`gottaCreateTable = true` leaving the preserve flag untouched (storage.h:907-911); the
first non-generated NOT NULL column without default breaks with `gottaCreateTable = true`
and clears the preserve flag (storage.h:913-921); every other column is appendable. -/
def columns_to_add_scan (tImpl : Table) : List TableXInfo → Bool × Bool
  | [] => (false, true)
  | c :: rest =>
    match tImpl.find_column_generated_storage_type c.name with
    | some g =>
      if g == GeneratedStorageKind.storedGen then (true, true)
      else columns_to_add_scan tImpl rest
    | none =>
      if c.notnull && c.dflt_value == "" then (true, false)
      else columns_to_add_scan tImpl rest

/-- The per-column break test of the `columnsToAdd` loop (storage.h:904-923): a column to
add forces recreation when it is stored-generated, or non-generated NOT NULL without a
default; a virtual-generated or nullable/defaulted ordinary column is appendable. -/
def column_forces_recreate (tImpl : Table) (c : TableXInfo) : Bool :=
  match tImpl.find_column_generated_storage_type c.name with
  | some g => g == GeneratedStorageKind.storedGen
  | none => c.notnull && c.dflt_value == ""

/-- Shallow embedding of `storage_t::schema_status` for tables (storage.h:858-943).
`dcs` models the `SQLITE_VERSION_NUMBER >= 3035000` DROP COLUMN capability gate
(storage.h:888-893). The second component is the value left in the
`*attempt_to_preserve` out parameter, which is set to `true` on entry (storage.h:863-865)
and cleared only at storage.h:916-920; the source only ever writes through the pointer,
so the returned classification is the same whether the caller passes the out parameter
(`sync_table`) or `nullptr` (`sync_schema_simulate`). -/
def schema_status (tImpl : Table) (dcs : Bool) (db : DBState) (preserve : Bool) :
    SyncSchemaResult × Bool :=
  if table_exists db tImpl.name then
    let dbTableInfo := table_xinfo db tImpl.name
    let storageTableInfo := tImpl.get_table_info
    let calcRes := calculate_remove_add_columns storageTableInfo dbTableInfo
    let columnsToAdd := calcRes.1
    let extraneous := calcRes.2.1
    if calcRes.2.2 then
      (SyncSchemaResult.dropped_and_recreated, true)
    else
      let removedStep : SyncSchemaResult × Bool :=
        if !extraneous.isEmpty then
          if !preserve then
            if dcs then (SyncSchemaResult.old_columns_removed, false)
            else (SyncSchemaResult.already_in_sync, true)
          else (SyncSchemaResult.old_columns_removed, false)
        else (SyncSchemaResult.already_in_sync, false)
      if removedStep.2 then
        (SyncSchemaResult.dropped_and_recreated, true)
      else if !columnsToAdd.isEmpty then
        let scan := columns_to_add_scan tImpl columnsToAdd
        if scan.1 then (SyncSchemaResult.dropped_and_recreated, scan.2)
        else if removedStep.1 == SyncSchemaResult.old_columns_removed then
          (SyncSchemaResult.new_columns_added_and_old_columns_removed, scan.2)
        else (SyncSchemaResult.new_columns_added, scan.2)
      else
        if removedStep.1 == SyncSchemaResult.old_columns_removed then
          (SyncSchemaResult.old_columns_removed, true)
        else (SyncSchemaResult.already_in_sync, true)
  else (SyncSchemaResult.new_table_created, true)

/-- One DDL/DML round trip issued by the executor paths of storage.h
(`create_table`, `copy_table`, `drop_table_internal`, `rename_table`,
`add_column`, `drop_column`). -/
inductive DDL where
  | create_table (tableName : String) (info : List TableXInfo) (withoutRowid : Bool)
  | copy_table (sourceName destinationName : String) (ignoredColumns : List String)
  | drop_table (tableName : String)
  | rename_table (oldName newName : String)
  | add_column (tableName : String) (col : TableXInfo)
  | drop_column (tableName : String) (columnName : String)
deriving DecidableEq, Repr

/-- Schema-level semantics of one DDL statement against the live database. A statement the
database would reject (CREATE TABLE for an existing name, DROP/ALTER of a missing table,
RENAME onto an existing name) fails, modelling the fail-fast executor of spec sections 4.4
and 7; `copy_table` moves row data only, leaving the schema unchanged. -/
def DDL.apply (db : DBState) : DDL → Option DBState
  | .create_table n info _ =>
    if table_exists db n then none else some ((n, info) :: db)
  | .copy_table _ _ _ => some db
  | .drop_table n =>
    if table_exists db n then some (db.filter fun p => !(p.1 == n)) else none
  | .rename_table o n =>
    if table_exists db o && !table_exists db n then
      some (db.map fun p => if p.1 == o then (n, p.2) else p)
    else none
  | .add_column n c =>
    if table_exists db n then
      some (db.map fun p => if p.1 == n then (p.1, p.2 ++ [c]) else p)
    else none
  | .drop_column n cn =>
    if table_exists db n then
      some (db.map fun p => if p.1 == n then (p.1, p.2.filter fun c => !(c.name == cn)) else p)
    else none

/-- Sequential execution of a statement list; the first failing statement aborts the rest
(spec section 7). -/
def apply_trace (db : DBState) : List DDL → Option DBState
  | [] => some db
  | d :: rest =>
    match DDL.apply db d with
    | some db2 => apply_trace db2 rest
    | none => none

/-- The suffix-probing `do`-`while` loop of `storage_t::backup_table` (storage.h:170-181):
starting at suffix 1, take the first `<base><suffix>` name no live table carries. `fuel`
bounds the unbounded loop of the source; callers supply fuel exceeding the number of
suffixes the loop can consume on the states they reach. -/
def backup_name_probe (db : DBState) (base : String) : Nat → Nat → String
  | 0, suffix => base ++ toString suffix
  | fuel + 1, suffix =>
    let anotherBackupTableName := base ++ toString suffix
    if !table_exists db anotherBackupTableName then anotherBackupTableName
    else backup_name_probe db base fuel (suffix + 1)

/-- The backup-name selection of `storage_t::backup_table` (storage.h:166-182): the
candidate `<table>_backup`, probed with numeric suffixes when already taken. -/
def backup_table_name (db : DBState) (tableName : String) : String :=
  let backupTableName := tableName ++ "_backup"
  if table_exists db backupTableName then
    backup_name_probe db backupTableName (db.length + 2) 1
  else backupTableName

/-- Shallow embedding of `storage_t::backup_table` (storage.h:163-189) as the ordered list
of database operations it performs: create the backup table with the declared target
schema, copy from the original into it, drop the original, rename the backup to the
original name. -/
def backup_table (tImpl : Table) (columnsToIgnore : List String) (db : DBState) : List DDL :=
  let backupTableName := backup_table_name db tImpl.name
  [DDL.create_table backupTableName tImpl.get_table_info tImpl.withoutRowid,
   DDL.copy_table tImpl.name backupTableName columnsToIgnore,
   DDL.drop_table tImpl.name,
   DDL.rename_table backupTableName tImpl.name]

/-- `storage_t::drop_create_with_loss` (storage.h:156-162) as its ordered operation list. -/
def drop_create_with_loss (tImpl : Table) : List DDL :=
  [DDL.drop_table tImpl.name,
   DDL.create_table tImpl.name tImpl.get_table_info tImpl.withoutRowid]

/-- Modelled from the spec: the apply-path `storage_t::sync_table` for tables is declared
at storage.h:966 but its body is not part of the excerpt. Per spec sections 2, 4.2 and 4.4
it executes the action plan matching the `schema_status` classification: create for a
missing table; recreation (with backup exactly when preservation was requested and
`attempt_to_preserve` survived, spec 4.2 rules 2 and 5) when recreation was forced;
otherwise DROP COLUMN for the extraneous live columns when preservation is off, a
backup-copy recreation ignoring the extraneous columns when it is on (spec 4.2 rules 3-4,
that recreation instates the full declared schema per spec 4.3 step 2, subsuming any
pending adds), followed by ALTER TABLE ADD COLUMN for each appendable new column. -/
def sync_actions (tImpl : Table) (dcs : Bool) (db : DBState) (preserve : Bool) : List DDL :=
  if table_exists db tImpl.name then
    let dbTableInfo := table_xinfo db tImpl.name
    let storageTableInfo := tImpl.get_table_info
    let calcRes := calculate_remove_add_columns storageTableInfo dbTableInfo
    let columnsToAdd := calcRes.1
    let extraneous := calcRes.2.1
    let extraneousNames := extraneous.map TableXInfo.name
    if calcRes.2.2 then
      let incompatibleNames := (storageTableInfo.filter fun s =>
        match dbTableInfo.find? (fun d => d.name == s.name) with
        | some d => !columns_compatible s d
        | none => false).map TableXInfo.name
      if preserve then backup_table tImpl (extraneousNames ++ incompatibleNames) db
      else drop_create_with_loss tImpl
    else if !extraneous.isEmpty && !preserve && !dcs then
      drop_create_with_loss tImpl
    else
      let scan := columns_to_add_scan tImpl columnsToAdd
      if !columnsToAdd.isEmpty && scan.1 then
        if preserve && scan.2 then backup_table tImpl extraneousNames db
        else drop_create_with_loss tImpl
      else if !extraneous.isEmpty && preserve then
        backup_table tImpl extraneousNames db
      else
        (extraneousNames.map (DDL.drop_column tImpl.name)) ++
          (columnsToAdd.map (DDL.add_column tImpl.name))
  else
    [DDL.create_table tImpl.name tImpl.get_table_info tImpl.withoutRowid]

/-- The apply-mode reconciliation of one table: the `schema_status` classification paired
with the operations executed for it (see `sync_actions` for the modelled part). -/
def sync_table (tImpl : Table) (dcs : Bool) (db : DBState) (preserve : Bool) :
    SyncSchemaResult × List DDL :=
  ((schema_status tImpl dcs db preserve).1, sync_actions tImpl dcs db preserve)

/-- `storage_t::sync_schema` (storage.h:1026-1036): fold the per-table reconciliation over
the declared tables in declaration order, threading the live state and collecting the
per-table classification; a failing statement aborts the run with no result map. -/
def sync_schema (dcs preserve : Bool) :
    List Table → DBState → Option (List (String × SyncSchemaResult) × DBState)
  | [], db => some ([], db)
  | t :: rest, db =>
    match apply_trace db (sync_actions t dcs db preserve) with
    | none => none
    | some db2 =>
      match sync_schema dcs preserve rest db2 with
      | none => none
      | some p => some ((t.name, (schema_status t dcs db preserve).1) :: p.1, p.2)

/-- `storage_t::sync_schema_simulate` (storage.h:1043-1051): classify every declared table
with `schema_status` (out parameter `nullptr`), issuing no DDL, so the live state passes
through every step unchanged. -/
def sync_schema_simulate (dcs preserve : Bool) :
    List Table → DBState → List (String × SyncSchemaResult) × DBState
  | [], db => ([], db)
  | t :: rest, db =>
    let schemaStatus := (schema_status t dcs db preserve).1
    let p := sync_schema_simulate dcs preserve rest db
    ((t.name, schemaStatus) :: p.1, p.2)

/-- The error codes of storage.h relevant here (`orm_error_code::migration_not_found`,
storage.h:255). -/
inductive OrmErrorCode where
  | migration_not_found
deriving DecidableEq, Repr

/-- `storage_t::register_migration` (storage.h:240-243): `this->migrations[key] = migration`
with `std::map::operator[]`, i.e. insert a binding for the key `(from, to)` or overwrite an
existing one. `M` stands for the opaque `migration_t` callback type. -/
def register_migration {M : Type} (migrations : List ((Int × Int) × M))
    (fromVersion toVersion : Int) (migration : M) : List ((Int × Int) × M) :=
  match migrations with
  | [] => [((fromVersion, toVersion), migration)]
  | e :: rest =>
    if e.1 = (fromVersion, toVersion) then ((fromVersion, toVersion), migration) :: rest
    else e :: register_migration rest fromVersion toVersion migration

/-- `storage_t::migrate_to` (storage.h:245-257): look up the key
`(currentVersion, to)` in the migration map; on a hit the stored migration is invoked with
a `connection_container` (returned here as the `ok` payload), otherwise
`orm_error_code::migration_not_found` is thrown. -/
def migrate_to {M : Type} (migrations : List ((Int × Int) × M))
    (currentVersion toVersion : Int) : Except OrmErrorCode M :=
  match migrations.find? (fun e => e.1 == (currentVersion, toVersion)) with
  | some e => Except.ok e.2
  | none => Except.error OrmErrorCode.migration_not_found

/-- A plain INTEGER column used by the concrete scenarios below. -/
def plainCol (n : String) : Column :=
  { name := n, type := "INTEGER", notnull := false, dflt_value := "", pk := 0, generated := none }

/-- Declared table `t(a, g)` where `g` is a stored generated column. -/
def tStoredGen : Table :=
  { name := "t", withoutRowid := false,
    columns := [plainCol "a",
                { plainCol "g" with generated := some GeneratedStorageKind.storedGen }] }

/-- Declared table `t(a, n)` where `n` is NOT NULL without a default. -/
def tNotNull : Table :=
  { name := "t", withoutRowid := false,
    columns := [plainCol "a", { plainCol "n" with notnull := true }] }

/-- Declared table `t(a)`. -/
def tPlain : Table :=
  { name := "t", withoutRowid := false, columns := [plainCol "a"] }

/-- Declared table `t(a, g, n)`: a stored generated column `g` declared before a NOT NULL
column `n` without default (mixed forcing kinds, stored first). -/
def tStoredThenNotNull : Table :=
  { name := "t", withoutRowid := false,
    columns := [plainCol "a",
                { plainCol "g" with generated := some GeneratedStorageKind.storedGen },
                { plainCol "n" with notnull := true }] }

/-- Declared table `t(a, n, g)`: a NOT NULL column `n` without default declared before a
stored generated column `g` (mixed forcing kinds, NOT NULL first). -/
def tNotNullThenStored : Table :=
  { name := "t", withoutRowid := false,
    columns := [plainCol "a",
                { plainCol "n" with notnull := true },
                { plainCol "g" with generated := some GeneratedStorageKind.storedGen }] }

/-- Live state where table `t` exists with the single column `a`. -/
def dbOneCol : DBState := [("t", [(plainCol "a").toXInfo])]

/-- Live state for the backup-name collision scenario: `t` carries an extraneous column
`x`, and tables `t_backup` and `t_backup1` already exist. -/
def dbProbe : DBState :=
  [("t", [(plainCol "a").toXInfo, (plainCol "x").toXInfo]),
   ("t_backup", []), ("t_backup1", [])]

/-! Theorems. -/

lemma register_migration_find_self {M : Type} (migrations : List ((Int × Int) × M))
    (f t : Int) (m : M) :
    (register_migration migrations f t m).find? (fun e => e.1 == (f, t)) = some ((f, t), m) := by
  induction migrations with
  | nil => simp [register_migration]
  | cons e rest ih =>
    by_cases h : e.1 = (f, t)
    · simp [register_migration, h]
    · simp [register_migration, h, List.find?, ih]

lemma register_migration_find_other {M : Type} (migrations : List ((Int × Int) × M))
    (f t f2 t2 : Int) (m : M) (h : (f2, t2) ≠ (f, t)) :
    (register_migration migrations f t m).find? (fun e => e.1 == (f2, t2)) =
      migrations.find? (fun e => e.1 == (f2, t2)) := by
  induction migrations with
  | nil =>
    rw [register_migration, List.find?_cons_of_neg, List.find?_nil]
    simp [Ne.symm h]
  | cons e rest ih =>
    by_cases he : e.1 = (f, t)
    · rw [show register_migration (e :: rest) f t m = ((f, t), m) :: rest by
        simp [register_migration, he]]
      rw [List.find?_cons_of_neg _ (by simp [Ne.symm h]),
        List.find?_cons_of_neg _ (by simp [he, Ne.symm h])]
    · rw [show register_migration (e :: rest) f t m =
          e :: register_migration rest f t m by simp [register_migration, he]]
      by_cases he2 : e.1 = (f2, t2)
      · rw [List.find?_cons_of_pos _ (by simp [he2]), List.find?_cons_of_pos _ (by simp [he2])]
      · rw [List.find?_cons_of_neg _ (by simp [he2]), List.find?_cons_of_neg _ (by simp [he2]),
          ih]

/-- C8: `migrate_to(to)` throws `MigrationNotFound` exactly when no migration is registered
for the key `(current user_version, to)`; when one is registered, the lookup raises no
error and the registered migration is the one invoked with the connection container. -/
theorem migrate_to_found_iff {M : Type} (migrations : List ((Int × Int) × M))
    (currentVersion toVersion : Int) :
    (migrate_to migrations currentVersion toVersion =
        Except.error OrmErrorCode.migration_not_found ↔
      ∀ e ∈ migrations, e.1 ≠ (currentVersion, toVersion)) ∧
    (∀ mg, migrations.find? (fun e => e.1 == (currentVersion, toVersion)) = some mg →
      migrate_to migrations currentVersion toVersion = Except.ok mg.2) := by
  constructor
  · unfold migrate_to
    cases h : migrations.find? (fun e => e.1 == (currentVersion, toVersion)) with
    | none =>
      constructor
      · intro _ e he hkey
        have hne := List.find?_eq_none.mp h e he
        simp [hkey] at hne
      · intro _
        rfl
    | some e =>
      constructor
      · intro hcontra
        simp at hcontra
      · intro hall
        have hmem := List.mem_of_find?_eq_some h
        have hkey := List.find?_some h
        simp only [beq_iff_eq] at hkey
        exact absurd hkey (hall e hmem)
  · intro mg hmg
    unfold migrate_to
    rw [hmg]

/-- C8 witness: with only a migration for `(1, 2)` registered, `migrate_to` throws
`MigrationNotFound` for the transition `(1, 3)` and invokes the registered migration for
`(1, 2)`. -/
theorem migrate_to_found_iff_witness :
    migrate_to ([((1, 2), 7)] : List ((Int × Int) × Nat)) 1 3 =
      Except.error OrmErrorCode.migration_not_found ∧
    migrate_to ([((1, 2), 7)] : List ((Int × Int) × Nat)) 1 2 = Except.ok 7 :=
  ⟨(migrate_to_found_iff [((1, 2), 7)] 1 3).1.mpr (by decide),
   (migrate_to_found_iff [((1, 2), 7)] 1 2).2 ((1, 2), 7) (by decide)⟩

/-- C10: registering a second migration for the same version pair silently replaces the
first one — no error, `migrate_to` from that version runs the second migration (so never
the first), and every other version pair's registration is untouched. -/
theorem register_migration_overwrites {M : Type} (migrations : List ((Int × Int) × M))
    (f t : Int) (m1 m2 : M) :
    migrate_to (register_migration (register_migration migrations f t m1) f t m2) f t =
        Except.ok m2 ∧
    (∀ f2 t2 : Int, (f2, t2) ≠ (f, t) →
      migrate_to (register_migration (register_migration migrations f t m1) f t m2) f2 t2 =
        migrate_to migrations f2 t2) := by
  constructor
  · unfold migrate_to
    rw [register_migration_find_self]
  · intro f2 t2 h
    unfold migrate_to
    rw [register_migration_find_other _ _ _ _ _ _ h, register_migration_find_other _ _ _ _ _ _ h]

/-- C10 witness: registering 7 then 9 for `(1, 2)` makes `migrate_to 1 2` run 9, and the
unrelated key `(3, 4)` is unaffected. -/
theorem register_migration_overwrites_witness :
    migrate_to (register_migration (register_migration
        ([] : List ((Int × Int) × Nat)) 1 2 7) 1 2 9) 1 2 = Except.ok 9 ∧
    migrate_to (register_migration (register_migration
        ([] : List ((Int × Int) × Nat)) 1 2 7) 1 2 9) 3 4 =
      migrate_to ([] : List ((Int × Int) × Nat)) 3 4 :=
  ⟨(register_migration_overwrites [] 1 2 7 9).1,
   (register_migration_overwrites [] 1 2 7 9).2 3 4 (by decide)⟩

lemma backup_name_probe_first_unused (db : DBState) (base : String) :
    ∀ (fuel start k : Nat), start ≤ k → k < start + fuel →
      (∀ j, start ≤ j → j < k → table_exists db (base ++ toString j) = true) →
      table_exists db (base ++ toString k) = false →
      backup_name_probe db base fuel start = base ++ toString k := by
  intro fuel
  induction fuel with
  | zero =>
    intro start k hsk hk _ _
    omega
  | succ n ih =>
    intro start k hsk hk hused hfree
    rcases Nat.eq_or_lt_of_le hsk with heq | hlt
    · subst heq
      simp [backup_name_probe, hfree]
    · have hstart : table_exists db (base ++ toString start) = true :=
        hused start le_rfl hlt
      simp only [backup_name_probe, hstart, Bool.not_true, Bool.false_eq_true, if_false]
      exact ih (start + 1) k hlt (by omega) (fun j h1 h2 => hused j (by omega) h2) hfree

/-- C7: `backup_table` performs exactly, and in this order: CREATE the backup table with
the declared target schema, copy from the original table into the backup, DROP the
original table, RENAME the backup to the original name — so the data copy always precedes
the drop of the original. -/
theorem backup_table_order (tImpl : Table) (columnsToIgnore : List String) (db : DBState) :
    backup_table tImpl columnsToIgnore db =
      [DDL.create_table (backup_table_name db tImpl.name) tImpl.get_table_info
         tImpl.withoutRowid,
       DDL.copy_table tImpl.name (backup_table_name db tImpl.name) columnsToIgnore,
       DDL.drop_table tImpl.name,
       DDL.rename_table (backup_table_name db tImpl.name) tImpl.name] := rfl

/-- C6: the backup-name coordinator first tries `<table>_backup`; when that name is taken
it probes `<table>_backup1`, `<table>_backup2`, … and takes the first unused name
(`k` below being the first free suffix; the bound `k ≤ db.length + 2` supplies the fuel
that stands in for the unbounded `do`-`while` of storage.h:171-181). -/
theorem backup_table_name_first_unused (db : DBState) (tableName : String) (k : Nat) :
    (table_exists db (tableName ++ "_backup") = false →
      backup_table_name db tableName = tableName ++ "_backup") ∧
    (table_exists db (tableName ++ "_backup") = true → 1 ≤ k → k ≤ db.length + 2 →
      (∀ j, 1 ≤ j → j < k →
        table_exists db (tableName ++ "_backup" ++ toString j) = true) →
      table_exists db (tableName ++ "_backup" ++ toString k) = false →
      backup_table_name db tableName = tableName ++ "_backup" ++ toString k) := by
  constructor
  · intro hfree
    simp [backup_table_name, hfree]
  · intro htaken hk1 hk2 hused hfree
    rw [backup_table_name]
    simp only [htaken, if_pos rfl]
    exact backup_name_probe_first_unused db (tableName ++ "_backup") (db.length + 2) 1 k hk1
      (by omega) hused hfree

/-- C6 witness: with live tables `t`, `t_backup` and `t_backup1`, reconciling `t` with
`preserve = true` (an extraneous live column `x` forcing the backup recreation) creates
the backup under the name `t_backup2`. -/
theorem backup_table_name_first_unused_witness :
    backup_table_name dbProbe "t" = "t_backup2" ∧
    (sync_table tPlain true dbProbe true).2.head? =
      some (DDL.create_table "t_backup2" tPlain.get_table_info false) := by
  constructor
  · exact (backup_table_name_first_unused dbProbe "t" 2).2 (by decide) (by decide) (by decide)
      (by decide) (by decide)
  · decide

/-- C5: a declared table absent from the live database is classified
`NewTableCreated` and its plan is a single CREATE TABLE, for both values of `preserve`. -/
theorem missing_table_new_table_created (tImpl : Table) (dcs : Bool) (db : DBState)
    (h : table_exists db tImpl.name = false) :
    ∀ preserve, sync_table tImpl dcs db preserve =
      (SyncSchemaResult.new_table_created,
       [DDL.create_table tImpl.name tImpl.get_table_info tImpl.withoutRowid]) := by
  intro preserve
  rw [sync_table, schema_status, sync_actions]
  simp [h]

/-- C5 witness. -/
theorem missing_table_new_table_created_witness :
    sync_table tPlain true [] true =
      (SyncSchemaResult.new_table_created,
       [DDL.create_table tPlain.name tPlain.get_table_info tPlain.withoutRowid]) :=
  missing_table_new_table_created tPlain true [] (by decide) true

/-- C4: for an existing table whose only discrepancy is extraneous live columns:
with `preserve = false` the outcome is `OldColumnsRemoved` when DROP COLUMN is supported
and `DroppedAndRecreated` when it is not; with `preserve = true` it is
`OldColumnsRemoved` regardless of DROP COLUMN support. -/
theorem extraneous_only_outcomes (tImpl : Table) (db : DBState) (extr : List TableXInfo)
    (hex : table_exists db tImpl.name = true)
    (hcalc : calculate_remove_add_columns tImpl.get_table_info (table_xinfo db tImpl.name) =
      ([], extr, false))
    (hne : extr.isEmpty = false) :
    (schema_status tImpl true db false).1 = SyncSchemaResult.old_columns_removed ∧
    (schema_status tImpl false db false).1 = SyncSchemaResult.dropped_and_recreated ∧
    (∀ dcs, (schema_status tImpl dcs db true).1 = SyncSchemaResult.old_columns_removed) := by
  refine ⟨?_, ?_, fun dcs => ?_⟩ <;>
    · rw [schema_status]
      simp [hex, hcalc, hne]

/-- C4 witness: declared `t(a)`, live `t(a, x)`. -/
theorem extraneous_only_outcomes_witness :
    (schema_status tPlain true [("t", [(plainCol "a").toXInfo, (plainCol "x").toXInfo])]
        false).1 = SyncSchemaResult.old_columns_removed ∧
    (schema_status tPlain false [("t", [(plainCol "a").toXInfo, (plainCol "x").toXInfo])]
        false).1 = SyncSchemaResult.dropped_and_recreated ∧
    (schema_status tPlain true [("t", [(plainCol "a").toXInfo, (plainCol "x").toXInfo])]
        true).1 = SyncSchemaResult.old_columns_removed ∧
    (schema_status tPlain false [("t", [(plainCol "a").toXInfo, (plainCol "x").toXInfo])]
        true).1 = SyncSchemaResult.old_columns_removed :=
  ⟨(extraneous_only_outcomes tPlain
      [("t", [(plainCol "a").toXInfo, (plainCol "x").toXInfo])]
      [(plainCol "x").toXInfo] (by decide) (by decide) (by decide)).1,
   (extraneous_only_outcomes tPlain
      [("t", [(plainCol "a").toXInfo, (plainCol "x").toXInfo])]
      [(plainCol "x").toXInfo] (by decide) (by decide) (by decide)).2.1,
   (extraneous_only_outcomes tPlain
      [("t", [(plainCol "a").toXInfo, (plainCol "x").toXInfo])]
      [(plainCol "x").toXInfo] (by decide) (by decide) (by decide)).2.2 true,
   (extraneous_only_outcomes tPlain
      [("t", [(plainCol "a").toXInfo, (plainCol "x").toXInfo])]
      [(plainCol "x").toXInfo] (by decide) (by decide) (by decide)).2.2 false⟩

lemma columns_to_add_scan_append_nonforcing (tImpl : Table) :
    ∀ (pre rest : List TableXInfo),
      (∀ x ∈ pre, column_forces_recreate tImpl x = false) →
      columns_to_add_scan tImpl (pre ++ rest) = columns_to_add_scan tImpl rest := by
  intro pre
  induction pre with
  | nil =>
    intro rest _
    rw [List.nil_append]
  | cons x pre2 ih =>
    intro rest hpre
    have hx0 := hpre x (List.mem_cons_self x pre2)
    rw [column_forces_recreate] at hx0
    rw [List.cons_append, columns_to_add_scan]
    cases hg : tImpl.find_column_generated_storage_type x.name with
    | some g =>
      rw [hg] at hx0
      have hx2 : (g == GeneratedStorageKind.storedGen) = false := hx0
      simp only [hx2, Bool.false_eq_true, if_false]
      exact ih rest fun y hy => hpre y (List.mem_cons_of_mem _ hy)
    | none =>
      rw [hg] at hx0
      have hx2 : (x.notnull && x.dflt_value == "") = false := hx0
      simp only [hx2, Bool.false_eq_true, if_false]
      exact ih rest fun y hy => hpre y (List.mem_cons_of_mem _ hy)

lemma columns_to_add_scan_first_stored (tImpl : Table) (pre post : List TableXInfo)
    (c : TableXInfo)
    (hpre : ∀ x ∈ pre, column_forces_recreate tImpl x = false)
    (hc : tImpl.find_column_generated_storage_type c.name =
      some GeneratedStorageKind.storedGen) :
    columns_to_add_scan tImpl (pre ++ c :: post) = (true, true) := by
  rw [columns_to_add_scan_append_nonforcing tImpl pre (c :: post) hpre,
    columns_to_add_scan, hc]
  simp

lemma columns_to_add_scan_first_notnull (tImpl : Table) (pre post : List TableXInfo)
    (c : TableXInfo)
    (hpre : ∀ x ∈ pre, column_forces_recreate tImpl x = false)
    (hcg : tImpl.find_column_generated_storage_type c.name = none)
    (hcf : (c.notnull && c.dflt_value == "") = true) :
    columns_to_add_scan tImpl (pre ++ c :: post) = (true, false) := by
  rw [columns_to_add_scan_append_nonforcing tImpl pre (c :: post) hpre,
    columns_to_add_scan, hcg]
  simp [hcf]

/-- C2 counterexample: declared `t(a, g)` with `g` stored-generated, live `t(a)`,
`preserve = true`. The claim asserts the attempt-to-preserve flag is cleared (so the
recreation would run with loss); in the code the stored-generated break at
storage.h:907-911 leaves the flag set, and the executed plan is the backup-copy-rename
recreation, not the lossy one. -/
theorem stored_generated_add_cex :
    schema_status tStoredGen true dbOneCol true =
      (SyncSchemaResult.dropped_and_recreated, true) ∧
    sync_actions tStoredGen true dbOneCol true = backup_table tStoredGen [] dbOneCol := by
  constructor
  · decide
  · decide

/-- C2 (amended): for an existing table, when the first recreation-forcing column among
the columns to add (in declaration order) is a `Stored`-generated one — every column
before it being appendable, the columns after it unconstrained — the table is classified
`DroppedAndRecreated` immediately, but preservation is not marked impossible: the
attempt-to-preserve flag stays `true`, so with `preserve = true` the recreation proceeds
with the backup, not with loss. -/
theorem stored_generated_add_recreates_with_backup (tImpl : Table) (dcs : Bool)
    (db : DBState) (pre post extr : List TableXInfo) (c : TableXInfo)
    (hex : table_exists db tImpl.name = true)
    (hcalc : calculate_remove_add_columns tImpl.get_table_info (table_xinfo db tImpl.name) =
      (pre ++ c :: post, extr, false))
    (hpre : ∀ x ∈ pre, column_forces_recreate tImpl x = false)
    (hc : tImpl.find_column_generated_storage_type c.name =
      some GeneratedStorageKind.storedGen) :
    (∀ preserve, schema_status tImpl dcs db preserve =
      (SyncSchemaResult.dropped_and_recreated, true)) ∧
    sync_actions tImpl dcs db true = backup_table tImpl (extr.map TableXInfo.name) db := by
  have hscan := columns_to_add_scan_first_stored tImpl pre post c hpre hc
  have hne : (pre ++ c :: post).isEmpty = false := by
    cases pre <;> rfl
  obtain ⟨adds, hadds⟩ : ∃ l, l = pre ++ c :: post := ⟨pre ++ c :: post, rfl⟩
  rw [← hadds] at hcalc hscan hne
  clear hadds
  constructor
  · intro preserve
    rw [schema_status]
    simp only [hex, if_pos rfl, hcalc]
    split_ifs <;> simp_all
  · rw [sync_actions]
    simp only [hex, if_pos rfl, hcalc]
    split_ifs <;> simp_all

/-- C2 amended witness, on a mixed add-list: declared `t(a, g, n)` with the
stored-generated `g` declared before the NOT NULL-no-default `n`, live `t(a)`: the scan
breaks at `g` first, so the flag stays set and `preserve = true` recreates via backup. -/
theorem stored_generated_add_recreates_with_backup_witness :
    schema_status tStoredThenNotNull false dbOneCol true =
      (SyncSchemaResult.dropped_and_recreated, true) ∧
    sync_actions tStoredThenNotNull false dbOneCol true =
      backup_table tStoredThenNotNull [] dbOneCol := by
  have h := stored_generated_add_recreates_with_backup tStoredThenNotNull false dbOneCol
    [] [{ (plainCol "n").toXInfo with notnull := true }] []
    { (plainCol "g").toXInfo with hidden := 3 }
    (by decide) (by decide) (by decide) (by decide)
  exact ⟨h.1 true, by simpa using h.2⟩

/-- C3 counterexample: declared `t(a, n)` with `n` NOT NULL and no default, live `t(a)`,
`preserve = true`. The claim asserts the engine still attempts the backup-copy-rename
recreation; in the code the break at storage.h:913-921 clears the attempt-to-preserve
flag (`we wont try!`), and the executed plan is plain DROP TABLE + CREATE TABLE with no
copy step. -/
theorem notnull_no_default_add_cex :
    schema_status tNotNull true dbOneCol true =
      (SyncSchemaResult.dropped_and_recreated, false) ∧
    sync_actions tNotNull true dbOneCol true = drop_create_with_loss tNotNull := by
  constructor
  · decide
  · decide

/-- C3 (amended): for an existing table, when the first recreation-forcing column among
the columns to add (in declaration order) is a non-generated NOT NULL column without a
default — every column before it being appendable, the columns after it unconstrained —
the outcome is `DroppedAndRecreated` regardless of `preserve`, but even with
`preserve = true` the engine does not attempt the backup-copy recreation: the
attempt-to-preserve flag is cleared and the table is recreated with loss. -/
theorem notnull_no_default_add_recreates_with_loss (tImpl : Table) (dcs : Bool)
    (db : DBState) (pre post extr : List TableXInfo) (c : TableXInfo)
    (hex : table_exists db tImpl.name = true)
    (hcalc : calculate_remove_add_columns tImpl.get_table_info (table_xinfo db tImpl.name) =
      (pre ++ c :: post, extr, false))
    (hpre : ∀ x ∈ pre, column_forces_recreate tImpl x = false)
    (hcg : tImpl.find_column_generated_storage_type c.name = none)
    (hcf : (c.notnull && c.dflt_value == "") = true) :
    (∀ preserve, (schema_status tImpl dcs db preserve).1 =
      SyncSchemaResult.dropped_and_recreated) ∧
    schema_status tImpl dcs db true = (SyncSchemaResult.dropped_and_recreated, false) ∧
    (∀ preserve, sync_actions tImpl dcs db preserve = drop_create_with_loss tImpl) := by
  have hscan := columns_to_add_scan_first_notnull tImpl pre post c hpre hcg hcf
  have hne : (pre ++ c :: post).isEmpty = false := by
    cases pre <;> rfl
  obtain ⟨adds, hadds⟩ : ∃ l, l = pre ++ c :: post := ⟨pre ++ c :: post, rfl⟩
  rw [← hadds] at hcalc hscan hne
  clear hadds
  refine ⟨fun preserve => ?_, ?_, fun preserve => ?_⟩
  · rw [schema_status]
    simp only [hex, if_pos rfl, hcalc]
    split_ifs <;> simp_all
  · rw [schema_status]
    simp only [hex, if_pos rfl, hcalc]
    split_ifs <;> simp_all
  · rw [sync_actions]
    simp only [hex, if_pos rfl, hcalc]
    split_ifs <;> simp_all

/-- C3 amended witness, on a mixed add-list: declared `t(a, n, g)` with the NOT
NULL-no-default `n` declared before the stored-generated `g`, live `t(a)`: the scan
breaks at `n` first, clearing the flag, and the table is recreated with loss. -/
theorem notnull_no_default_add_recreates_with_loss_witness :
    (schema_status tNotNullThenStored false dbOneCol true).1 =
      SyncSchemaResult.dropped_and_recreated ∧
    schema_status tNotNullThenStored false dbOneCol true =
      (SyncSchemaResult.dropped_and_recreated, false) ∧
    sync_actions tNotNullThenStored false dbOneCol false =
      drop_create_with_loss tNotNullThenStored := by
  have h := notnull_no_default_add_recreates_with_loss tNotNullThenStored false dbOneCol
    [] [{ (plainCol "g").toXInfo with hidden := 3 }] []
    { (plainCol "n").toXInfo with notnull := true }
    (by decide) (by decide) (by decide) (by decide) (by decide)
  exact ⟨h.1 true, h.2.1, h.2.2 false⟩

lemma table_lookup_cons_self (n : String) (info : List TableXInfo) (db : DBState) :
    table_lookup ((n, info) :: db) n = some info := by
  simp [table_lookup, List.find?_cons_of_pos]

lemma table_lookup_cons_ne (n m : String) (info : List TableXInfo) (db : DBState)
    (h : ¬n = m) :
    table_lookup ((n, info) :: db) m = table_lookup db m := by
  rw [table_lookup, table_lookup, List.find?_cons_of_neg _ (by simp [h])]

lemma table_lookup_filter_self (n : String) (db : DBState) :
    table_lookup (db.filter fun p => !(p.1 == n)) n = none := by
  rw [table_lookup]
  have h : (db.filter fun p => !(p.1 == n)).find? (fun p => p.1 == n) = none := by
    rw [List.find?_eq_none]
    intro x hx
    have := (List.mem_filter.mp hx).2
    simp at this
    simp [this]
  rw [h]

lemma table_lookup_filter_ne (n m : String) (db : DBState) (h : ¬n = m) :
    table_lookup (db.filter fun p => !(p.1 == n)) m = table_lookup db m := by
  rw [table_lookup, table_lookup]
  induction db with
  | nil => rfl
  | cons e rest ih =>
    by_cases he : e.1 = n
    · rw [List.filter_cons_of_neg (by simp [he])]
      rw [List.find?_cons_of_neg _ (by simp [he, h])]
      exact ih
    · rw [List.filter_cons_of_pos (by simp [he])]
      by_cases hm : e.1 = m
      · rw [List.find?_cons_of_pos _ (by simp [hm]), List.find?_cons_of_pos _ (by simp [hm])]
      · rw [List.find?_cons_of_neg _ (by simp [hm]), List.find?_cons_of_neg _ (by simp [hm])]
        exact ih

lemma table_lookup_map_update_self (n : String) (f : List TableXInfo → List TableXInfo)
    (db : DBState) :
    table_lookup (db.map fun p => if p.1 == n then (p.1, f p.2) else p) n =
      (table_lookup db n).map f := by
  rw [table_lookup, table_lookup]
  induction db with
  | nil => rfl
  | cons e rest ih =>
    by_cases he : e.1 = n
    · rw [List.map_cons, if_pos (by simp [he])]
      rw [List.find?_cons_of_pos _ (by simp [he]), List.find?_cons_of_pos _ (by simp [he])]
      rfl
    · rw [List.map_cons, if_neg (by simp [he])]
      rw [List.find?_cons_of_neg _ (by simp [he]), List.find?_cons_of_neg _ (by simp [he])]
      exact ih

lemma table_lookup_map_update_ne (n m : String) (f : List TableXInfo → List TableXInfo)
    (db : DBState) (h : ¬n = m) :
    table_lookup (db.map fun p => if p.1 == n then (p.1, f p.2) else p) m =
      table_lookup db m := by
  rw [table_lookup, table_lookup]
  induction db with
  | nil => rfl
  | cons e rest ih =>
    by_cases he : e.1 = n
    · rw [List.map_cons, if_pos (by simp [he])]
      rw [List.find?_cons_of_neg _ (by simp [he, h]), List.find?_cons_of_neg _ (by simp [he, h])]
      exact ih
    · rw [List.map_cons, if_neg (by simp [he])]
      by_cases hm : e.1 = m
      · rw [List.find?_cons_of_pos _ (by simp [hm]), List.find?_cons_of_pos _ (by simp [hm])]
      · rw [List.find?_cons_of_neg _ (by simp [hm]), List.find?_cons_of_neg _ (by simp [hm])]
        exact ih

lemma table_exists_map_update (n m : String) (f : List TableXInfo → List TableXInfo)
    (db : DBState) :
    table_exists (db.map fun p => if p.1 == n then (p.1, f p.2) else p) m =
      table_exists db m := by
  by_cases h : n = m
  · subst h
    rw [table_exists, table_exists, table_lookup_map_update_self]
    cases table_lookup db n <;> rfl
  · rw [table_exists, table_exists, table_lookup_map_update_ne _ _ _ _ h]

lemma apply_trace_append (l1 l2 : List DDL) :
    ∀ db : DBState, apply_trace db (l1 ++ l2) =
      match apply_trace db l1 with
      | some db2 => apply_trace db2 l2
      | none => none := by
  induction l1 with
  | nil => intro db; rfl
  | cons d rest ih =>
    intro db
    rw [List.cons_append, apply_trace, apply_trace]
    cases DDL.apply db d with
    | some db2 => exact ih db2
    | none => rfl

lemma table_lookup_eq_none_of_not_exists (db : DBState) (n : String)
    (h : table_exists db n = false) : table_lookup db n = none := by
  rw [table_exists] at h
  cases hl : table_lookup db n with
  | none => rfl
  | some v => rw [hl] at h; simp at h

lemma no_entry_of_not_exists (db : DBState) (n : String)
    (h : table_exists db n = false) : ∀ p ∈ db, ¬p.1 = n := by
  intro p hp hpn
  have hnone := table_lookup_eq_none_of_not_exists db n h
  rw [table_lookup] at hnone
  cases hf : db.find? (fun p => p.1 == n) with
  | some q => rw [hf] at hnone; simp at hnone
  | none =>
    rw [List.find?_eq_none] at hf
    exact hf p hp (by simp [hpn])

lemma apply_trace_nil (db : DBState) : apply_trace db [] = some db := rfl

lemma apply_trace_cons_some (db db1 : DBState) (d : DDL) (l : List DDL)
    (h : DDL.apply db d = some db1) : apply_trace db (d :: l) = apply_trace db1 l := by
  rw [apply_trace, h]

lemma apply_trace_cons_none (db : DBState) (d : DDL) (l : List DDL)
    (h : DDL.apply db d = none) : apply_trace db (d :: l) = none := by
  rw [apply_trace, h]


lemma filter_not_contains_nil (l : List TableXInfo) :
    (l.filter fun c => !(([] : List String).contains c.name)) = l := by
  have htrue : ∀ c ∈ l, (!(([] : List String).contains c.name)) = (fun _ => true) c :=
    fun c _ => rfl
  rw [List.filter_congr htrue, List.filter_true]

lemma filter_not_contains_cons (l : List TableXInfo) (nm : String) (rest : List String) :
    ((l.filter fun c => !(c.name == nm)).filter fun c => !(rest.contains c.name)) =
      l.filter fun c => !((nm :: rest).contains c.name) := by
  rw [List.filter_filter]
  apply List.filter_congr
  intro c _
  rw [List.contains_cons]
  cases c.name == nm <;> cases rest.contains c.name <;> rfl

lemma apply_drop_create (tImpl : Table) (db db2 : DBState)
    (h : apply_trace db (drop_create_with_loss tImpl) = some db2) :
    db2 = (tImpl.name, tImpl.get_table_info) ::
      db.filter fun p => !(p.1 == tImpl.name) := by
  rw [drop_create_with_loss] at h
  cases hex : table_exists db tImpl.name with
  | false =>
    rw [apply_trace_cons_none _ _ _ (by simp [DDL.apply, hex])] at h
    cases h
  | true =>
    rw [apply_trace_cons_some _ (db.filter fun p => !(p.1 == tImpl.name)) _ _
      (by simp [DDL.apply, hex])] at h
    have hne : table_exists (db.filter fun p => !(p.1 == tImpl.name)) tImpl.name = false := by
      rw [table_exists, table_lookup_filter_self]
      rfl
    rw [apply_trace_cons_some _ ((tImpl.name, tImpl.get_table_info) ::
      db.filter fun p => !(p.1 == tImpl.name)) _ _ (by simp [DDL.apply, hne])] at h
    rw [apply_trace_nil] at h
    exact (Option.some.inj h).symm

lemma apply_backup_table (tImpl : Table) (ig : List String) (db db2 : DBState)
    (h : apply_trace db (backup_table tImpl ig db) = some db2) :
    db2 = (tImpl.name, tImpl.get_table_info) ::
      db.filter fun p => !(p.1 == tImpl.name) := by
  rw [backup_table] at h
  generalize hbn : backup_table_name db tImpl.name = bn at h
  cases hexbn : table_exists db bn with
  | true =>
    rw [apply_trace_cons_none _ _ _ (by simp [DDL.apply, hexbn])] at h
    cases h
  | false =>
    rw [apply_trace_cons_some _ ((bn, tImpl.get_table_info) :: db) _ _
      (by simp [DDL.apply, hexbn])] at h
    rw [apply_trace_cons_some ((bn, tImpl.get_table_info) :: db)
      ((bn, tImpl.get_table_info) :: db) (DDL.copy_table tImpl.name bn ig)
      [DDL.drop_table tImpl.name, DDL.rename_table bn tImpl.name] rfl] at h
    by_cases hbnn : bn = tImpl.name
    · -- a backup name equal to the table name would be removed by the drop, making the
      -- final rename fail; ruled out by the success hypothesis
      subst hbnn
      have hex1 : table_exists ((tImpl.name, tImpl.get_table_info) :: db) tImpl.name =
          true := by
        rw [table_exists, table_lookup_cons_self]
        rfl
      rw [apply_trace_cons_some _ (((tImpl.name, tImpl.get_table_info) :: db).filter
        fun p => !(p.1 == tImpl.name)) _ _ (by simp [DDL.apply, hex1])] at h
      have hne : table_exists (((tImpl.name, tImpl.get_table_info) :: db).filter
          fun p => !(p.1 == tImpl.name)) tImpl.name = false := by
        rw [table_exists, table_lookup_filter_self]
        rfl
      rw [apply_trace_cons_none _ _ _ (by simp [DDL.apply, hne])] at h
      cases h
    · have hex1 : table_exists ((bn, tImpl.get_table_info) :: db) tImpl.name =
          table_exists db tImpl.name := by
        rw [table_exists, table_exists, table_lookup_cons_ne _ _ _ _ hbnn]
      cases hexn : table_exists db tImpl.name with
      | false =>
        rw [hexn] at hex1
        rw [apply_trace_cons_none _ _ _ (by simp [DDL.apply, hex1])] at h
        cases h
      | true =>
        rw [hexn] at hex1
        have h3 : DDL.apply ((bn, tImpl.get_table_info) :: db) (DDL.drop_table tImpl.name) =
            some ((bn, tImpl.get_table_info) ::
              db.filter fun p => !(p.1 == tImpl.name)) := by
          have hfc : (((bn, tImpl.get_table_info) :: db).filter
              fun p => !(p.1 == tImpl.name)) =
              (bn, tImpl.get_table_info) :: db.filter fun p => !(p.1 == tImpl.name) :=
            List.filter_cons_of_pos (by simp [hbnn])
          simp [DDL.apply, hex1, hfc]
        rw [apply_trace_cons_some _ _ _ _ h3] at h
        have hexbn2 : table_exists ((bn, tImpl.get_table_info) ::
            db.filter fun p => !(p.1 == tImpl.name)) bn = true := by
          rw [table_exists, table_lookup_cons_self]
          rfl
        have hexn2 : table_exists ((bn, tImpl.get_table_info) ::
            db.filter fun p => !(p.1 == tImpl.name)) tImpl.name = false := by
          rw [table_exists, table_lookup_cons_ne _ _ _ _ hbnn, table_lookup_filter_self]
          rfl
        have hmapall : ((bn, tImpl.get_table_info) ::
            db.filter fun p => !(p.1 == tImpl.name)).map
              (fun p => if p.1 == bn then (tImpl.name, p.2) else p) =
            (tImpl.name, tImpl.get_table_info) ::
              db.filter fun p => !(p.1 == tImpl.name) := by
          rw [List.map_cons]
          congr 1
          · rw [if_pos (by simp)]
          · have hid : ∀ p ∈ db.filter (fun p => !(p.1 == tImpl.name)),
                (if p.1 == bn then (tImpl.name, p.2) else p) = p := by
              intro p hp
              exact if_neg (by
                simp [no_entry_of_not_exists db bn hexbn p (List.mem_filter.mp hp).1])
            rw [List.map_congr_left hid]
            exact List.map_id _
        have h4 : DDL.apply ((bn, tImpl.get_table_info) ::
            db.filter fun p => !(p.1 == tImpl.name)) (DDL.rename_table bn tImpl.name) =
            some ((tImpl.name, tImpl.get_table_info) ::
              db.filter fun p => !(p.1 == tImpl.name)) := by
          simp only [DDL.apply, hexbn2, hexn2, Bool.not_false, Bool.and_self]
          rw [if_pos trivial]
          exact congrArg some hmapall
        rw [apply_trace_cons_some _ _ _ _ h4, apply_trace_nil] at h
        exact (Option.some.inj h).symm

lemma apply_drop_columns (n : String) :
    ∀ (names : List String) (db : DBState) (info : List TableXInfo),
      table_lookup db n = some info →
      ∃ db2, apply_trace db (names.map (DDL.drop_column n)) = some db2 ∧
        (∀ m, ¬m = n → table_lookup db2 m = table_lookup db m) ∧
        table_lookup db2 n = some (info.filter fun c => !(names.contains c.name)) := by
  intro names
  induction names with
  | nil =>
    intro db info hinfo
    refine ⟨db, apply_trace_nil db, fun m _ => rfl, ?_⟩
    rw [hinfo, filter_not_contains_nil]
  | cons nm rest ih =>
    intro db info hinfo
    have hex : table_exists db n = true := by
      rw [table_exists, hinfo]
      rfl
    have hstep : DDL.apply db (DDL.drop_column n nm) =
        some (db.map fun p => if p.1 == n then
          (p.1, p.2.filter fun c => !(c.name == nm)) else p) := by
      simp [DDL.apply, hex]
    have hinfo1 : table_lookup (db.map fun p => if p.1 == n then
        (p.1, p.2.filter fun c => !(c.name == nm)) else p) n =
        some (info.filter fun c => !(c.name == nm)) := by
      rw [table_lookup_map_update_self, hinfo]
      rfl
    obtain ⟨db2, htr, hframe, hlook⟩ := ih _ _ hinfo1
    refine ⟨db2, ?_, ?_, ?_⟩
    · rw [List.map_cons, apply_trace_cons_some _ _ _ _ hstep]
      exact htr
    · intro m hm
      rw [hframe m hm, table_lookup_map_update_ne _ _ _ _ (fun hnm => hm hnm.symm)]
    · rw [hlook, filter_not_contains_cons]

lemma apply_add_columns (n : String) :
    ∀ (cols : List TableXInfo) (db : DBState) (info : List TableXInfo),
      table_lookup db n = some info →
      ∃ db2, apply_trace db (cols.map (DDL.add_column n)) = some db2 ∧
        (∀ m, ¬m = n → table_lookup db2 m = table_lookup db m) ∧
        table_lookup db2 n = some (info ++ cols) := by
  intro cols
  induction cols with
  | nil =>
    intro db info hinfo
    refine ⟨db, apply_trace_nil db, fun m _ => rfl, ?_⟩
    rw [hinfo, List.append_nil]
  | cons c rest ih =>
    intro db info hinfo
    have hex : table_exists db n = true := by
      rw [table_exists, hinfo]
      rfl
    have hstep : DDL.apply db (DDL.add_column n c) =
        some (db.map fun p => if p.1 == n then (p.1, p.2 ++ [c]) else p) := by
      simp [DDL.apply, hex]
    have hinfo1 : table_lookup (db.map fun p => if p.1 == n then
        (p.1, p.2 ++ [c]) else p) n = some (info ++ [c]) := by
      rw [table_lookup_map_update_self n (fun l => l ++ [c]) db, hinfo]
      rfl
    obtain ⟨db2, htr, hframe, hlook⟩ := ih _ _ hinfo1
    refine ⟨db2, ?_, ?_, ?_⟩
    · rw [List.map_cons, apply_trace_cons_some _ _ _ _ hstep]
      exact htr
    · intro m hm
      rw [hframe m hm,
        table_lookup_map_update_ne n m (fun l => l ++ [c]) db (fun hnm => hm hnm.symm)]
    · rw [hlook, List.append_assoc, List.singleton_append]

lemma find?_filter_of_imp {α : Type} (p q : α → Bool) :
    ∀ l : List α, (∀ x ∈ l, q x = true → p x = true) →
      (l.filter p).find? q = l.find? q := by
  intro l
  induction l with
  | nil =>
    intro _
    rfl
  | cons a rest ih =>
    intro h
    by_cases hq : q a = true
    · rw [List.filter_cons_of_pos (h a (List.mem_cons_self a rest) hq),
        List.find?_cons_of_pos _ hq, List.find?_cons_of_pos _ hq]
    · by_cases hp : p a = true
      · rw [List.filter_cons_of_pos hp, List.find?_cons_of_neg _ hq,
          List.find?_cons_of_neg _ hq]
        exact ih fun x hx => h x (List.mem_cons_of_mem _ hx)
      · rw [List.filter_cons_of_neg hp, List.find?_cons_of_neg _ hq]
        exact ih fun x hx => h x (List.mem_cons_of_mem _ hx)

lemma columns_compatible_self (c : TableXInfo) : columns_compatible c c = true := by
  simp [columns_compatible]

lemma nodup_name_inj (l : List TableXInfo) (h : (l.map TableXInfo.name).Nodup)
    {x y : TableXInfo} (hx : x ∈ l) (hy : y ∈ l) (hname : x.name = y.name) : x = y :=
  List.inj_on_of_nodup_map h hx hy hname

lemma calculate_self (storage : List TableXInfo)
    (hnodup : (storage.map TableXInfo.name).Nodup) :
    calculate_remove_add_columns storage storage = ([], [], false) := by
  rw [calculate_remove_add_columns]
  simp only [Prod.mk.injEq]
  refine ⟨?_, ?_, ?_⟩
  · rw [List.filter_eq_nil_iff]
    intro s hs
    have hany : storage.any (fun d => d.name == s.name) = true :=
      List.any_eq_true.mpr ⟨s, hs, by simp⟩
    simp [hany]
  · rw [List.filter_eq_nil_iff]
    intro d hd
    have hany : storage.any (fun s => s.name == d.name) = true :=
      List.any_eq_true.mpr ⟨d, hd, by simp⟩
    simp [hany]
  · rw [List.any_eq_false]
    intro s hs
    cases hf : storage.find? (fun d => d.name == s.name) with
    | none => simp [hf]
    | some d =>
      have hd := List.find?_some hf
      have hdm := List.mem_of_find?_eq_some hf
      simp only [beq_iff_eq] at hd
      have hds : d = s := nodup_name_inj storage hnodup hdm hs hd
      subst hds
      simp [hf, columns_compatible_self]

lemma compat_of_calc_false (storage dbInfo : List TableXInfo)
    (h : (calculate_remove_add_columns storage dbInfo).2.2 = false) :
    ∀ s ∈ storage, ∀ d, dbInfo.find? (fun x => x.name == s.name) = some d →
      columns_compatible s d = true := by
  have h2 : (storage.any fun s =>
      match dbInfo.find? (fun d => d.name == s.name) with
      | some d => !columns_compatible s d
      | none => false) = false := h
  rw [List.any_eq_false] at h2
  intro s hs d hf
  have h3 := h2 s hs
  rw [hf] at h3
  simp at h3
  exact h3

lemma filter_not_contains_extraneous (storage dbInfo : List TableXInfo) :
    (dbInfo.filter fun d =>
        !(((dbInfo.filter fun d => !storage.any fun s => s.name == d.name).map
          TableXInfo.name).contains d.name)) =
      dbInfo.filter fun d => storage.any fun s => s.name == d.name := by
  apply List.filter_congr
  intro d hd
  cases hany : storage.any fun s => s.name == d.name with
  | true =>
    have hno : ∀ x ∈ dbInfo.filter fun d => !storage.any fun s => s.name == d.name,
        ¬x.name = d.name := by
      intro x hx hxd
      have hxp := (List.mem_filter.mp hx).2
      rw [hxd, hany] at hxp
      simp at hxp
    have hnc : (((dbInfo.filter fun d => !storage.any fun s => s.name == d.name).map
        TableXInfo.name).contains d.name) = false := by
      cases hc : (((dbInfo.filter fun d => !storage.any fun s => s.name == d.name).map
          TableXInfo.name).contains d.name) with
      | false => rfl
      | true =>
        have hmem : d.name ∈ (dbInfo.filter fun d =>
            !storage.any fun s => s.name == d.name).map TableXInfo.name :=
          List.elem_iff.mp hc
        obtain ⟨x, hx, hxd⟩ := List.mem_map.mp hmem
        exact absurd hxd (hno x hx)
    rw [hnc]
    rfl
  | false =>
    have hdm : d ∈ dbInfo.filter fun d => !storage.any fun s => s.name == d.name :=
      List.mem_filter.mpr ⟨hd, by simp [hany]⟩
    have hmem : d.name ∈ (dbInfo.filter fun d =>
        !storage.any fun s => s.name == d.name).map TableXInfo.name :=
      List.mem_map_of_mem _ hdm
    have hc : (((dbInfo.filter fun d => !storage.any fun s => s.name == d.name).map
        TableXInfo.name).contains d.name) = true :=
      List.elem_iff.mpr hmem
    rw [hc]
    rfl

lemma calculate_drop_add_insync (storage dbInfo : List TableXInfo)
    (hnodup : (storage.map TableXInfo.name).Nodup)
    (hcompat : ∀ s ∈ storage, ∀ d, dbInfo.find? (fun x => x.name == s.name) = some d →
      columns_compatible s d = true) :
    calculate_remove_add_columns storage
      ((dbInfo.filter fun d => storage.any fun s => s.name == d.name) ++
        (storage.filter fun s => !dbInfo.any fun d => d.name == s.name)) =
      ([], [], false) := by
  rw [calculate_remove_add_columns]
  simp only [Prod.mk.injEq]
  refine ⟨?_, ?_, ?_⟩
  · rw [List.filter_eq_nil_iff]
    intro s hs
    have hany : ((dbInfo.filter fun d => storage.any fun s => s.name == d.name) ++
        (storage.filter fun s => !dbInfo.any fun d => d.name == s.name)).any
          (fun d => d.name == s.name) = true := by
      rw [List.any_append]
      cases hdb : dbInfo.any fun d => d.name == s.name with
      | true =>
        obtain ⟨d, hd, hdn⟩ := List.any_eq_true.mp hdb
        simp only [beq_iff_eq] at hdn
        have hdm : d ∈ dbInfo.filter fun d => storage.any fun s => s.name == d.name :=
          List.mem_filter.mpr ⟨hd, List.any_eq_true.mpr ⟨s, hs, by simp [hdn]⟩⟩
        have : (dbInfo.filter fun d => storage.any fun s => s.name == d.name).any
            (fun d => d.name == s.name) = true :=
          List.any_eq_true.mpr ⟨d, hdm, by simp [hdn]⟩
        rw [this]
        rfl
      | false =>
        have hsm : s ∈ storage.filter fun s => !dbInfo.any fun d => d.name == s.name :=
          List.mem_filter.mpr ⟨hs, by simp [hdb]⟩
        have : (storage.filter fun s => !dbInfo.any fun d => d.name == s.name).any
            (fun d => d.name == s.name) = true :=
          List.any_eq_true.mpr ⟨s, hsm, by simp⟩
        rw [this, Bool.or_true]
    simp [hany]
  · rw [List.filter_eq_nil_iff]
    intro d hd
    rcases List.mem_append.mp hd with hdm | hdm
    · have := (List.mem_filter.mp hdm).2
      simp [this]
    · have hds : d ∈ storage := (List.mem_filter.mp hdm).1
      have hany : storage.any (fun s => s.name == d.name) = true :=
        List.any_eq_true.mpr ⟨d, hds, by simp⟩
      simp [hany]
  · rw [List.any_eq_false]
    intro s hs
    rw [List.find?_append]
    cases hdb : dbInfo.any fun d => d.name == s.name with
    | true =>
      have hff : ((dbInfo.filter fun d => storage.any fun s => s.name == d.name).find?
          fun d => d.name == s.name) = dbInfo.find? fun d => d.name == s.name := by
        apply find?_filter_of_imp
        intro x hx hxq
        simp only [beq_iff_eq] at hxq
        exact List.any_eq_true.mpr ⟨s, hs, by simp [hxq]⟩
      cases hf : dbInfo.find? fun d => d.name == s.name with
      | none =>
        exfalso
        obtain ⟨d, hd, hdn⟩ := List.any_eq_true.mp hdb
        have := List.find?_eq_none.mp hf d hd
        exact this hdn
      | some d =>
        rw [hff, hf]
        have := hcompat s hs d hf
        simp [this]
    | false =>
      have hmnone : ((dbInfo.filter fun d => storage.any fun s => s.name == d.name).find?
          fun d => d.name == s.name) = none := by
        rw [List.find?_eq_none]
        intro x hx
        exact List.any_eq_false.mp hdb x (List.mem_filter.mp hx).1
      rw [hmnone]
      cases hf : ((storage.filter fun s => !dbInfo.any fun d => d.name == s.name).find?
          fun d => d.name == s.name) with
      | none => simp
      | some d =>
        have hdm : d ∈ storage := (List.mem_filter.mp (List.mem_of_find?_eq_some hf)).1
        have hdn := List.find?_some hf
        simp only [beq_iff_eq] at hdn
        have hds : d = s := nodup_name_inj storage hnodup hdm hs hdn
        subst hds
        simp [columns_compatible_self]

lemma exists_lookup (db : DBState) (n : String) (h : table_exists db n = true) :
    ∃ info, table_lookup db n = some info := by
  rw [table_exists] at h
  exact Option.isSome_iff_exists.mp h

lemma apply_trace_append_some (l1 : List DDL) :
    ∀ (l2 : List DDL) (db dbm db2 : DBState),
      apply_trace db l1 = some dbm → apply_trace db (l1 ++ l2) = some db2 →
      apply_trace dbm l2 = some db2 := by
  induction l1 with
  | nil =>
    intro l2 db dbm db2 h1 h
    rw [apply_trace_nil] at h1
    obtain rfl := Option.some.inj h1
    rw [List.nil_append] at h
    exact h
  | cons d rest ih =>
    intro l2 db dbm db2 h1 h
    rw [List.cons_append] at h
    cases hd : DDL.apply db d with
    | none =>
      rw [apply_trace_cons_none _ _ _ hd] at h1
      cases h1
    | some dbx =>
      rw [apply_trace_cons_some _ _ _ _ hd] at h1
      rw [apply_trace_cons_some _ _ _ _ hd] at h
      exact ih l2 dbx dbm db2 h1 h

lemma sync_actions_cases (tImpl : Table) (dcs preserve : Bool) (db : DBState) :
    sync_actions tImpl dcs db preserve =
        [DDL.create_table tImpl.name tImpl.get_table_info tImpl.withoutRowid] ∨
    (∃ ig, sync_actions tImpl dcs db preserve = backup_table tImpl ig db) ∨
    sync_actions tImpl dcs db preserve = drop_create_with_loss tImpl ∨
    (table_exists db tImpl.name = true ∧
      (calculate_remove_add_columns tImpl.get_table_info
        (table_xinfo db tImpl.name)).2.2 = false ∧
      sync_actions tImpl dcs db preserve =
        (((calculate_remove_add_columns tImpl.get_table_info
            (table_xinfo db tImpl.name)).2.1.map TableXInfo.name).map
          (DDL.drop_column tImpl.name)) ++
        ((calculate_remove_add_columns tImpl.get_table_info
            (table_xinfo db tImpl.name)).1.map (DDL.add_column tImpl.name))) := by
  cases hex : table_exists db tImpl.name with
  | false =>
    refine Or.inl ?_
    rw [sync_actions]
    simp [hex]
  | true =>
    by_cases hc1 : (calculate_remove_add_columns tImpl.get_table_info
        (table_xinfo db tImpl.name)).2.2 = true
    · by_cases hp : preserve = true
      · refine Or.inr (Or.inl
          ⟨((calculate_remove_add_columns tImpl.get_table_info
              (table_xinfo db tImpl.name)).2.1.map TableXInfo.name) ++
            ((tImpl.get_table_info.filter fun s =>
              match (table_xinfo db tImpl.name).find? (fun d => d.name == s.name) with
              | some d => !columns_compatible s d
              | none => false).map TableXInfo.name), ?_⟩)
        rw [sync_actions]
        simp only [hex, if_true, hc1, hp]
      · have hpf : preserve = false := by
          cases preserve
          · rfl
          · exact absurd rfl hp
        refine Or.inr (Or.inr (Or.inl ?_))
        rw [sync_actions]
        simp only [hex, if_true, hc1, hpf, Bool.false_eq_true, if_false]
    · have hc1f : (calculate_remove_add_columns tImpl.get_table_info
          (table_xinfo db tImpl.name)).2.2 = false := by
        cases hcc : (calculate_remove_add_columns tImpl.get_table_info
            (table_xinfo db tImpl.name)).2.2 with
        | false => rfl
        | true => exact absurd hcc hc1
      by_cases hc3 : (!(calculate_remove_add_columns tImpl.get_table_info
          (table_xinfo db tImpl.name)).2.1.isEmpty && !preserve && !dcs) = true
      · refine Or.inr (Or.inr (Or.inl ?_))
        rw [sync_actions]
        simp only [hex, if_true, hc1f, Bool.false_eq_true, if_false, hc3]
      · have hc3f : (!(calculate_remove_add_columns tImpl.get_table_info
            (table_xinfo db tImpl.name)).2.1.isEmpty && !preserve && !dcs) = false := by
          cases hcc : (!(calculate_remove_add_columns tImpl.get_table_info
              (table_xinfo db tImpl.name)).2.1.isEmpty && !preserve && !dcs) with
          | false => rfl
          | true => exact absurd hcc hc3
        by_cases hc4 : (!(calculate_remove_add_columns tImpl.get_table_info
            (table_xinfo db tImpl.name)).1.isEmpty &&
            (columns_to_add_scan tImpl (calculate_remove_add_columns tImpl.get_table_info
              (table_xinfo db tImpl.name)).1).1) = true
        · by_cases hc5 : (preserve && (columns_to_add_scan tImpl
              (calculate_remove_add_columns tImpl.get_table_info
                (table_xinfo db tImpl.name)).1).2) = true
          · refine Or.inr (Or.inl
              ⟨(calculate_remove_add_columns tImpl.get_table_info
                (table_xinfo db tImpl.name)).2.1.map TableXInfo.name, ?_⟩)
            rw [sync_actions]
            simp only [hex, if_true, hc1f, Bool.false_eq_true, if_false, hc3f, hc4, hc5]
          · have hc5f : (preserve && (columns_to_add_scan tImpl
                (calculate_remove_add_columns tImpl.get_table_info
                  (table_xinfo db tImpl.name)).1).2) = false := by
              cases hcc : (preserve && (columns_to_add_scan tImpl
                  (calculate_remove_add_columns tImpl.get_table_info
                    (table_xinfo db tImpl.name)).1).2) with
              | false => rfl
              | true => exact absurd hcc hc5
            refine Or.inr (Or.inr (Or.inl ?_))
            rw [sync_actions]
            simp only [hex, if_true, hc1f, Bool.false_eq_true, if_false, hc3f, hc4, hc5f]
        · have hc4f : (!(calculate_remove_add_columns tImpl.get_table_info
              (table_xinfo db tImpl.name)).1.isEmpty &&
              (columns_to_add_scan tImpl (calculate_remove_add_columns tImpl.get_table_info
                (table_xinfo db tImpl.name)).1).1) = false := by
            cases hcc : (!(calculate_remove_add_columns tImpl.get_table_info
                (table_xinfo db tImpl.name)).1.isEmpty &&
                (columns_to_add_scan tImpl (calculate_remove_add_columns tImpl.get_table_info
                  (table_xinfo db tImpl.name)).1).1) with
            | false => rfl
            | true => exact absurd hcc hc4
          by_cases hc6 : (!(calculate_remove_add_columns tImpl.get_table_info
              (table_xinfo db tImpl.name)).2.1.isEmpty && preserve) = true
          · refine Or.inr (Or.inl
              ⟨(calculate_remove_add_columns tImpl.get_table_info
                (table_xinfo db tImpl.name)).2.1.map TableXInfo.name, ?_⟩)
            rw [sync_actions]
            simp only [hex, if_true, hc1f, Bool.false_eq_true, if_false, hc3f, hc4f, hc6]
          · have hc6f : (!(calculate_remove_add_columns tImpl.get_table_info
                (table_xinfo db tImpl.name)).2.1.isEmpty && preserve) = false := by
              cases hcc : (!(calculate_remove_add_columns tImpl.get_table_info
                  (table_xinfo db tImpl.name)).2.1.isEmpty && preserve) with
              | false => rfl
              | true => exact absurd hcc hc6
            refine Or.inr (Or.inr (Or.inr ⟨rfl, hc1f, ?_⟩))
            rw [sync_actions]
            simp only [hex, if_true, hc1f, Bool.false_eq_true, if_false, hc3f, hc4f, hc6f]

lemma sync_effect (tImpl : Table) (dcs preserve : Bool) (db db2 : DBState)
    (happly : apply_trace db (sync_actions tImpl dcs db preserve) = some db2) :
    (∀ m, ¬m = tImpl.name → table_lookup db2 m = table_lookup db m) ∧
    (table_lookup db2 tImpl.name = some tImpl.get_table_info ∨
      (∃ info, table_lookup db tImpl.name = some info ∧
        (calculate_remove_add_columns tImpl.get_table_info info).2.2 = false ∧
        table_lookup db2 tImpl.name =
          some ((info.filter fun d => tImpl.get_table_info.any fun s => s.name == d.name) ++
            (tImpl.get_table_info.filter fun s => !info.any fun d => d.name == s.name)))) := by
  rcases sync_actions_cases tImpl dcs preserve db with
    hcase | ⟨ig, hcase⟩ | hcase | ⟨hex, hcc, hcase⟩
  · rw [hcase] at happly
    cases hex : table_exists db tImpl.name with
    | true =>
      rw [apply_trace_cons_none _ _ _ (by simp [DDL.apply, hex])] at happly
      cases happly
    | false =>
      rw [apply_trace_cons_some _ ((tImpl.name, tImpl.get_table_info) :: db) _ _
        (by simp [DDL.apply, hex]), apply_trace_nil] at happly
      obtain rfl := (Option.some.inj happly)
      constructor
      · intro m hm
        rw [table_lookup_cons_ne _ _ _ _ fun h => hm h.symm]
      · exact Or.inl (table_lookup_cons_self _ _ _)
  · rw [hcase] at happly
    have hshape := apply_backup_table tImpl ig db db2 happly
    subst hshape
    constructor
    · intro m hm
      rw [table_lookup_cons_ne _ _ _ _ fun h => hm h.symm,
        table_lookup_filter_ne _ _ _ fun h => hm h.symm]
    · exact Or.inl (table_lookup_cons_self _ _ _)
  · rw [hcase] at happly
    have hshape := apply_drop_create tImpl db db2 happly
    subst hshape
    constructor
    · intro m hm
      rw [table_lookup_cons_ne _ _ _ _ fun h => hm h.symm,
        table_lookup_filter_ne _ _ _ fun h => hm h.symm]
    · exact Or.inl (table_lookup_cons_self _ _ _)
  · rw [hcase] at happly
    obtain ⟨info, hinfo⟩ := exists_lookup db tImpl.name hex
    have hxinfo : table_xinfo db tImpl.name = info := by
      rw [table_xinfo, hinfo]
      rfl
    rw [hxinfo] at happly hcc
    obtain ⟨dbMid, hdrop, hframe1, hlook1⟩ :=
      apply_drop_columns tImpl.name
        ((calculate_remove_add_columns tImpl.get_table_info info).2.1.map TableXInfo.name)
        db info hinfo
    have hadds : apply_trace dbMid
        ((calculate_remove_add_columns tImpl.get_table_info info).1.map
          (DDL.add_column tImpl.name)) = some db2 :=
      apply_trace_append_some _ _ _ _ _ hdrop happly
    obtain ⟨db2L, hadd, hframe2, hlook2⟩ :=
      apply_add_columns tImpl.name
        ((calculate_remove_add_columns tImpl.get_table_info info).1) dbMid _ hlook1
    rw [hadd] at hadds
    obtain rfl := Option.some.inj hadds
    constructor
    · intro m hm
      rw [hframe2 m hm, hframe1 m hm]
    · refine Or.inr ⟨info, hinfo, hcc, ?_⟩
      rw [hlook2]
      have hextr : (calculate_remove_add_columns tImpl.get_table_info info).2.1 =
          info.filter fun d => !tImpl.get_table_info.any fun s => s.name == d.name := rfl
      have haddsEq : (calculate_remove_add_columns tImpl.get_table_info info).1 =
          tImpl.get_table_info.filter fun s => !info.any fun d => d.name == s.name := rfl
      rw [hextr, haddsEq, filter_not_contains_extraneous]

lemma schema_status_insync_of_lookup (tImpl : Table) (db : DBState)
    (info : List TableXInfo) (hlook : table_lookup db tImpl.name = some info)
    (hcalc : calculate_remove_add_columns tImpl.get_table_info info = ([], [], false)) :
    ∀ dcs preserve, schema_status tImpl dcs db preserve =
        (SyncSchemaResult.already_in_sync, true) ∧
      sync_actions tImpl dcs db preserve = [] := by
  intro dcs preserve
  have hex : table_exists db tImpl.name = true := by
    rw [table_exists, hlook]
    rfl
  have hxinfo : table_xinfo db tImpl.name = info := by
    rw [table_xinfo, hlook]
    rfl
  constructor
  · rw [schema_status]
    simp [hex, hxinfo, hcalc]
  · rw [sync_actions]
    simp [hex, hxinfo, hcalc, columns_to_add_scan]

lemma sync_insync_after (tImpl : Table) (dcs preserve : Bool) (db db2 : DBState)
    (hnodup : (tImpl.get_table_info.map TableXInfo.name).Nodup)
    (happly : apply_trace db (sync_actions tImpl dcs db preserve) = some db2) :
    ∀ dcs2 preserve2, schema_status tImpl dcs2 db2 preserve2 =
        (SyncSchemaResult.already_in_sync, true) ∧
      sync_actions tImpl dcs2 db2 preserve2 = [] := by
  obtain ⟨-, hcontent⟩ := sync_effect tImpl dcs preserve db db2 happly
  rcases hcontent with hself | ⟨info, _, hcc, hself⟩
  · exact schema_status_insync_of_lookup tImpl db2 _ hself
      (calculate_self _ hnodup)
  · exact schema_status_insync_of_lookup tImpl db2 _ hself
      (calculate_drop_add_insync _ info hnodup
        (compat_of_calc_false _ _ hcc))

lemma schema_status_congr (tImpl : Table) (dcs preserve : Bool) (dbA dbB : DBState)
    (h : table_lookup dbA tImpl.name = table_lookup dbB tImpl.name) :
    schema_status tImpl dcs dbA preserve = schema_status tImpl dcs dbB preserve := by
  rw [schema_status, schema_status, table_exists, table_exists, table_xinfo, table_xinfo, h]

lemma sync_schema_cons_inv (dcs preserve : Bool) (t : Table) (rest : List Table)
    (db : DBState) (p : List (String × SyncSchemaResult) × DBState)
    (h : sync_schema dcs preserve (t :: rest) db = some p) :
    ∃ db2 q, apply_trace db (sync_actions t dcs db preserve) = some db2 ∧
      sync_schema dcs preserve rest db2 = some q ∧
      p = ((t.name, (schema_status t dcs db preserve).1) :: q.1, q.2) := by
  rw [sync_schema] at h
  cases happ : apply_trace db (sync_actions t dcs db preserve) with
  | none =>
    rw [happ] at h
    cases h
  | some db2 =>
    rw [happ] at h
    simp only [] at h
    cases hrec : sync_schema dcs preserve rest db2 with
    | none =>
      rw [hrec] at h
      cases h
    | some q =>
      rw [hrec] at h
      simp only [] at h
      exact ⟨db2, q, rfl, hrec, (Option.some.inj h).symm⟩

lemma sync_schema_frame (dcs preserve : Bool) :
    ∀ (tables : List Table) (db : DBState)
      (p : List (String × SyncSchemaResult) × DBState),
      sync_schema dcs preserve tables db = some p →
      ∀ m, (∀ t ∈ tables, ¬m = t.name) → table_lookup p.2 m = table_lookup db m := by
  intro tables
  induction tables with
  | nil =>
    intro db p h m _
    rw [sync_schema] at h
    obtain rfl := Option.some.inj h
    rfl
  | cons t rest ih =>
    intro db p h m hm
    obtain ⟨db2, q, happ, hrec, rfl⟩ := sync_schema_cons_inv dcs preserve t rest db p h
    have h1 : table_lookup db2 m = table_lookup db m :=
      (sync_effect t dcs preserve db db2 happ).1 m (hm t (List.mem_cons_self t rest))
    have h2 := ih db2 q hrec m fun u hu => hm u (List.mem_cons_of_mem _ hu)
    exact h2.trans h1

lemma sync_schema_simulate_state (dcs preserve : Bool) :
    ∀ (tables : List Table) (db : DBState),
      (sync_schema_simulate dcs preserve tables db).2 = db := by
  intro tables
  induction tables with
  | nil => intro db; rfl
  | cons t rest ih =>
    intro db
    rw [sync_schema_simulate]
    exact ih db

lemma sync_schema_simulate_congr (dcs preserve : Bool) :
    ∀ (tables : List Table) (dbA dbB : DBState),
      (∀ t ∈ tables, table_lookup dbA t.name = table_lookup dbB t.name) →
      (sync_schema_simulate dcs preserve tables dbA).1 =
        (sync_schema_simulate dcs preserve tables dbB).1 := by
  intro tables
  induction tables with
  | nil => intro _ _ _; rfl
  | cons t rest ih =>
    intro dbA dbB h
    rw [sync_schema_simulate, sync_schema_simulate]
    have h1 := schema_status_congr t dcs preserve dbA dbB (h t (List.mem_cons_self t rest))
    have h2 := ih dbA dbB fun u hu => h u (List.mem_cons_of_mem _ hu)
    simp only [h1, h2]

/-- C1: `sync_schema_simulate(preserve)` returns exactly the per-table classification map
that `sync_schema(preserve)` produces against the same live state (whenever the latter
completes), and performs no database mutation: its resulting live state is the input
state unchanged. -/
theorem sync_schema_simulate_agrees (dcs preserve : Bool) :
    ∀ (tables : List Table) (db : DBState)
      (p : List (String × SyncSchemaResult) × DBState),
      (tables.map Table.name).Nodup →
      sync_schema dcs preserve tables db = some p →
      sync_schema_simulate dcs preserve tables db = (p.1, db) := by
  intro tables
  induction tables with
  | nil =>
    intro db p _ h
    rw [sync_schema] at h
    obtain rfl := Option.some.inj h
    rfl
  | cons t rest ih =>
    intro db p hnames h
    obtain ⟨db2, q, happ, hrec, rfl⟩ := sync_schema_cons_inv dcs preserve t rest db p h
    obtain ⟨hns, hnames2⟩ := List.nodup_cons.mp hnames
    have hframe := (sync_effect t dcs preserve db db2 happ).1
    have hih := ih db2 q hnames2 hrec
    have hcg : (sync_schema_simulate dcs preserve rest db).1 =
        (sync_schema_simulate dcs preserve rest db2).1 := by
      apply sync_schema_simulate_congr
      intro u hu
      exact (hframe u.name fun he => hns (he ▸ List.mem_map_of_mem Table.name hu)).symm
    rw [sync_schema_simulate]
    have hq1 : (sync_schema_simulate dcs preserve rest db).1 = q.1 := by
      rw [hcg, hih]
    rw [Prod.ext_iff]
    exact ⟨by simp [hq1], by simp [sync_schema_simulate_state]⟩

/-- C1 witness: one declared table `t(a, g)` (`g` stored-generated) against a live `t(a)`
with `preserve = true`: the apply path recreates via backup and reports
`DroppedAndRecreated`; the simulation reports the same map and leaves the state alone. -/
theorem sync_schema_simulate_agrees_witness :
    sync_schema_simulate true true [tStoredGen] dbOneCol =
      (([("t", SyncSchemaResult.dropped_and_recreated)] : List (String × SyncSchemaResult)),
        dbOneCol) := by
  have h := sync_schema_simulate_agrees true true [tStoredGen] dbOneCol
    ([("t", SyncSchemaResult.dropped_and_recreated)],
      [("t", tStoredGen.get_table_info)])
    (by decide) (by decide)
  exact h

/-- C9: if `sync_schema(preserve)` completes successfully, running it again from the
resulting live state (with no external mutation in between) reports `AlreadyInSync` for
every declared table, leaving the state untouched. Declared table names and each table's
declared column names are assumed unique (spec section 3 invariant). -/
theorem sync_schema_idempotent (dcs preserve : Bool) :
    ∀ (tables : List Table) (db : DBState)
      (p : List (String × SyncSchemaResult) × DBState),
      (tables.map Table.name).Nodup →
      (∀ t ∈ tables, ((t.get_table_info.map TableXInfo.name)).Nodup) →
      sync_schema dcs preserve tables db = some p →
      sync_schema dcs preserve tables p.2 =
        some (tables.map fun t => (t.name, SyncSchemaResult.already_in_sync), p.2) := by
  intro tables
  induction tables with
  | nil =>
    intro db p _ _ h
    rw [sync_schema] at h
    obtain rfl := Option.some.inj h
    rfl
  | cons t rest ih =>
    intro db p hnames hcols h
    obtain ⟨db2, q, happ, hrec, rfl⟩ := sync_schema_cons_inv dcs preserve t rest db p h
    obtain ⟨hns, hnames2⟩ := List.nodup_cons.mp hnames
    have hframe_rest : table_lookup q.2 t.name = table_lookup db2 t.name := by
      apply sync_schema_frame dcs preserve rest db2 q hrec
      intro u hu he
      exact hns (he ▸ List.mem_map_of_mem Table.name hu)
    obtain ⟨-, hcontent⟩ := sync_effect t dcs preserve db db2 happ
    have hnodupT := hcols t (List.mem_cons_self t rest)
    have hinsync : ∀ dcs2 preserve2, schema_status t dcs2 q.2 preserve2 =
        (SyncSchemaResult.already_in_sync, true) ∧
        sync_actions t dcs2 q.2 preserve2 = [] := by
      rcases hcontent with hself | ⟨info, _, hcc, hself⟩
      · exact schema_status_insync_of_lookup t q.2 _ (hframe_rest.trans hself)
          (calculate_self _ hnodupT)
      · exact schema_status_insync_of_lookup t q.2 _ (hframe_rest.trans hself)
          (calculate_drop_add_insync _ info hnodupT (compat_of_calc_false _ _ hcc))
    have hih := ih db2 q hnames2 (fun u hu => hcols u (List.mem_cons_of_mem _ hu)) hrec
    rw [sync_schema]
    rw [(hinsync dcs preserve).2, apply_trace_nil]
    simp only []
    rw [hih]
    simp only [List.map_cons, (hinsync dcs preserve).1]

/-- C9 witness: declared `t(a, g)` (`g` stored-generated), live `t(a)`,
`preserve = true`: the first run recreates the table via backup; the second run reports
`AlreadyInSync`. -/
theorem sync_schema_idempotent_witness :
    sync_schema true true [tStoredGen] [("t", tStoredGen.get_table_info)] =
      some ([("t", SyncSchemaResult.already_in_sync)],
        [("t", tStoredGen.get_table_info)]) := by
  have h := sync_schema_idempotent true true [tStoredGen] dbOneCol
    ([("t", SyncSchemaResult.dropped_and_recreated)],
      [("t", tStoredGen.get_table_info)])
    (by decide) (by decide) (by decide)
  exact h

end SqliteOrm
